import Mathlib

/-!
# Verification of the wpjsapi-lib request/pagination/auth core

Shallow embedding of the core of the `wpjsapi-lib` TypeScript client
(URL builder, query-parameter serialization, pagination metadata
extraction, pagination helpers, request executor with the
retry-on-refresh rule, and the authentication-strategy dispatcher),
together with theorems settling the specification claims about it.

Strings manipulated character-by-character (URL normalization) are
modelled as `List Char`; strings only compared or concatenated as a
whole use Lean `String`.  JavaScript numbers that only ever hold
integral values in the source are modelled as `Int` (page numbers,
counts, HTTP status codes); `undefined`/absent values are `Option`.
-/

namespace Wpjsapi

/-! ## URL Builder (`src/api/wordpress/http.ts`) -/

/-- Embedding of `normalizeUrl(baseUrl, path)` from `http.ts`:
strips one trailing slash from `baseUrl` if present (`slice(0, -1)` is
`dropLast`), ensures `path` starts with a slash, and concatenates. -/
def normalizeUrl (baseUrl path : List Char) : List Char :=
  let cleanBase := if baseUrl.getLast? = some '/' then baseUrl.dropLast else baseUrl
  let cleanPath := if path.head? = some '/' then path else '/' :: path
  cleanBase ++ cleanPath

/-- Number of positions where the scheme separator `://` occurs in a
character list (occurrences are counted at every starting position). -/
def countScheme : List Char → Nat
  | [] => 0
  | c :: rest =>
    (if (c :: rest).take 3 = [':', '/', '/'] then 1 else 0) + countScheme rest

/-- `buildUrl(baseUrl, path, params)` from `http.ts` in the case where no
query parameters are supplied: the query string is empty, so no `?` is
appended and the result is exactly `normalizeUrl baseUrl path`. -/
def buildUrlNoParams (baseUrl path : List Char) : List Char :=
  let normalizedUrl := normalizeUrl baseUrl path
  let queryString : List Char := []
  normalizedUrl ++ (if queryString.isEmpty then [] else '?' :: queryString)

theorem buildUrlNoParams_eq (baseUrl path : List Char) :
    buildUrlNoParams baseUrl path = normalizeUrl baseUrl path := by
  simp [buildUrlNoParams]

/-- Helper: appending to a list whose last element is not `'/'` and
whose appended head is fixed: `countScheme` distributes over the join
`base ++ '/' :: path` when `base` does not end in a slash and `path`
does not begin with one (no `://` occurrence can span the join). -/
theorem countScheme_append (base path : List Char)
    (hb : base.getLast? ≠ some '/') (hp : path.head? ≠ some '/') :
    countScheme (base ++ '/' :: path) = countScheme base + countScheme path := by
  induction base with
  | nil =>
    have hhead : ('/' :: path).take 3 ≠ [':', '/', '/'] := by
      intro h
      have h0 := congrArg List.head? h
      simp [List.take_succ_cons] at h0
    simp only [List.nil_append, countScheme, if_neg hhead]
  | cons c rest ih =>
    have hrest : rest.getLast? ≠ some '/' := by
      cases rest with
      | nil => simp
      | cons d ds => simpa [List.getLast?_cons_cons] using hb
    have hmain := ih hrest
    have htake : ((c :: (rest ++ '/' :: path)).take 3 = [':', '/', '/'])
        ↔ ((c :: rest).take 3 = [':', '/', '/']) := by
      cases rest with
      | nil =>
        have hc : c ≠ '/' := by simpa using hb
        constructor
        · intro h
          exfalso
          simp only [List.nil_append, List.take_succ_cons, List.take] at h
          cases path with
          | nil => simp at h
          | cons e es =>
            simp only [List.take_succ_cons, List.cons.injEq] at h
            exact hp (by simp [h.2.2.1])
        · intro h
          exfalso
          simp [List.take_succ_cons] at h
      | cons d ds =>
        cases ds with
        | nil =>
          have hd : d ≠ '/' := by simpa using hb
          constructor
          · intro h
            exfalso
            simp only [List.cons_append, List.nil_append, List.take_succ_cons,
              List.take_zero, List.cons.injEq] at h
            exact hd h.2.1
          · intro h
            exfalso
            simp [List.take_succ_cons] at h
        | cons e es =>
          simp [List.take_succ_cons]
    calc countScheme (c :: rest ++ '/' :: path)
        = (if (c :: (rest ++ '/' :: path)).take 3 = [':', '/', '/'] then 1 else 0)
            + countScheme (rest ++ '/' :: path) := rfl
      _ = (if (c :: rest).take 3 = [':', '/', '/'] then 1 else 0)
            + (countScheme rest + countScheme path) := by
          rw [if_congr htake rfl rfl, hmain]
      _ = countScheme (c :: rest) + countScheme path := by
          show _ = ((if (c :: rest).take 3 = [':', '/', '/'] then 1 else 0)
            + countScheme rest) + countScheme path
          omega

/-- C7 (amended): for a base address with no trailing slash and a path
with no leading slash, `normalizeUrl` (and `buildUrl` without query
parameters) returns `base ++ "/" ++ path`, and the value is invariant
under adding a trailing slash to the base and/or a leading slash to the
path (all four combinations agree); when the base contains exactly one
occurrence of `://` and the path none, the result contains exactly one,
and the join point carries exactly one slash (the base does not end in
one, the path does not begin with one). -/
theorem normalizeUrl_slash_invariant (base path : List Char)
    (hb : base.getLast? ≠ some '/') (hp : path.head? ≠ some '/')
    (h1 : countScheme base = 1) (h0 : countScheme path = 0) :
    normalizeUrl base path = base ++ '/' :: path
    ∧ normalizeUrl (base ++ ['/']) path = base ++ '/' :: path
    ∧ normalizeUrl base ('/' :: path) = base ++ '/' :: path
    ∧ normalizeUrl (base ++ ['/']) ('/' :: path) = base ++ '/' :: path
    ∧ buildUrlNoParams base path = base ++ '/' :: path
    ∧ countScheme (base ++ '/' :: path) = 1 := by
  have hlast : (base ++ ['/']).getLast? = some '/' := by
    simp
  have hdrop : (base ++ ['/']).dropLast = base := by
    simp
  have e1 : normalizeUrl base path = base ++ '/' :: path := by
    simp only [normalizeUrl, if_neg hb, if_neg hp]
  refine ⟨e1, ?_, ?_, ?_, ?_, ?_⟩
  · simp [normalizeUrl, hlast, hdrop, if_neg hp]
  · simp [normalizeUrl, if_neg hb]
  · simp [normalizeUrl, hlast, hdrop]
  · rw [buildUrlNoParams_eq]; exact e1
  · rw [countScheme_append base path hb hp, h1, h0]

/-- C7, claim as stated is false: the value of `normalizeUrl` is not
invariant under adding a trailing slash to an arbitrary base (a base
already ending in a slash gains a doubled slash), and the result does
not in general contain exactly one occurrence of `://` (a base with no
scheme separator yields none). -/
theorem normalizeUrl_slash_invariant_cex :
    normalizeUrl ['a', '/'] ['b'] ≠ normalizeUrl ['a', '/', '/'] ['b']
    ∧ countScheme (normalizeUrl ['a'] ['b']) ≠ 1 := by decide

/-- Witness for C7: the amended theorem applied to the concrete base
`http://x` and path `p`. -/
theorem normalizeUrl_slash_invariant_witness :
    normalizeUrl ['h', 't', 't', 'p', ':', '/', '/', 'x'] ['p']
      = ['h', 't', 't', 'p', ':', '/', '/', 'x', '/', 'p']
    ∧ countScheme (['h', 't', 't', 'p', ':', '/', '/', 'x'] ++ '/' :: ['p']) = 1 := by
  have h := normalizeUrl_slash_invariant ['h', 't', 't', 'p', ':', '/', '/', 'x'] ['p']
    (by decide) (by decide) (by decide) (by decide)
  exact ⟨h.1.trans (by decide), h.2.2.2.2.2⟩

/-- Helper for C8: stripping one trailing slash from a base that does
not end in a doubled slash leaves a list not ending in a slash. -/
theorem stripSlash_getLast (base : List Char) (hsuf : ¬ (['/', '/'] <:+ base)) :
    (if base.getLast? = some '/' then base.dropLast else base).getLast? ≠ some '/' := by
  by_cases hb : base.getLast? = some '/'
  · rw [if_pos hb]
    intro hl
    rcases base.eq_nil_or_concat with hnil | ⟨l, a, rfl⟩
    · subst hnil; simp at hb
    · simp only [List.concat_eq_append] at hb hl hsuf
      rw [List.getLast?_concat] at hb
      obtain rfl : a = '/' := Option.some.inj hb
      rw [List.dropLast_concat] at hl
      rcases l.eq_nil_or_concat with hnil | ⟨l', b, rfl⟩
      · subst hnil; simp at hl
      · simp only [List.concat_eq_append] at hl hsuf
        rw [List.getLast?_concat] at hl
        obtain rfl : b = '/' := Option.some.inj hl
        exact hsuf ⟨l', by simp⟩
  · rw [if_neg hb]; exact hb

/-- C8 (amended): `normalizeUrl base []` (empty path) returns the base
with its trailing slash stripped and then a single `/` appended — the
same value as `normalizeUrl base ["/"]` — and when the base does not end
in a doubled slash, that value ends in exactly one trailing slash. -/
theorem normalizeUrl_empty_path (base : List Char) :
    normalizeUrl base [] = normalizeUrl base ['/']
    ∧ normalizeUrl base []
        = (if base.getLast? = some '/' then base.dropLast else base) ++ ['/']
    ∧ (¬ (['/', '/'] <:+ base) →
        (normalizeUrl base ['/']).getLast? = some '/'
        ∧ (normalizeUrl base ['/']).dropLast.getLast? ≠ some '/') := by
  have e0 : normalizeUrl base []
      = (if base.getLast? = some '/' then base.dropLast else base) ++ ['/'] := by
    simp [normalizeUrl]
  have e1 : normalizeUrl base ['/']
      = (if base.getLast? = some '/' then base.dropLast else base) ++ ['/'] := by
    simp [normalizeUrl]
  refine ⟨e0.trans e1.symm, e0, fun hsuf => ?_⟩
  rw [e1]
  constructor
  · simp
  · rw [List.dropLast_concat]
    exact stripSlash_getLast base hsuf

/-- C8, claim as stated is false: `normalizeUrl` with an empty path does
not return the base with its trailing slash removed; it appends a
slash (the empty path is rewritten to `"/"`). -/
theorem normalizeUrl_empty_path_cex : normalizeUrl ['a'] [] ≠ ['a'] := by decide

/-- Witness for C8: the amended theorem applied to the concrete base
`a/`. -/
theorem normalizeUrl_empty_path_witness :
    normalizeUrl ['a', '/'] [] = ['a', '/']
    ∧ (normalizeUrl ['a', '/'] ['/']).getLast? = some '/'
    ∧ (normalizeUrl ['a', '/'] ['/']).dropLast.getLast? ≠ some '/' := by
  have h := normalizeUrl_empty_path ['a', '/']
  have h3 := h.2.2 (by decide)
  exact ⟨h.2.1.trans (by decide), h3.1, h3.2⟩

/-! ## Query-parameter serialization (`buildSearchParams` in `http.ts`)

A parameter value is either `undefined`, `null`, a primitive (string,
number, boolean) or an array of primitives; `URLSearchParams` is
modelled as the ordered list of `(key, value)` pairs appended to it
(claims concern which pairs are appended, not percent-encoding). -/

/-- A primitive JavaScript value, with its `toString()` behaviour. -/
inductive Prim
  | pstr (s : String)
  | pnum (n : Int)
  | pbool (b : Bool)
deriving DecidableEq

/-- JavaScript `v.toString()` for primitive values. -/
def Prim.toStringJS : Prim → String
  | .pstr s => s
  | .pnum n => toString n
  | .pbool b => if b then "true" else "false"

/-- A value in the parameter mapping passed to `buildSearchParams`. -/
inductive ParamValue
  | undef
  | pnull
  | prim (p : Prim)
  | arr (elems : List Prim)
deriving DecidableEq

/-- Embedding of `buildSearchParams(params)` from `http.ts`: iterates
the entries in insertion order, skipping `undefined`/`null`; `_fields`
arrays are comma-joined under one key (nothing for the empty array);
`_embed` with the boolean value `true` appends the literal `"true"`;
other arrays append one pair per element; every other value is
stringified directly. -/
def buildSearchParams (params : List (String × ParamValue)) : List (String × String) :=
  params.foldl (fun searchParams kv =>
    match kv.2 with
    | .undef => searchParams
    | .pnull => searchParams
    | .arr l =>
      if kv.1 = "_fields" then
        if l.length > 0 then
          searchParams ++ [("_fields", String.intercalate "," (l.map Prim.toStringJS))]
        else searchParams
      else searchParams ++ l.map (fun v => (kv.1, v.toStringJS))
    | .prim p =>
      if kv.1 = "_embed" ∧ p = .pbool true then searchParams ++ [("_embed", "true")]
      else searchParams ++ [(kv.1, p.toStringJS)]) []

/-- Each `buildSearchParams` fold step only appends to the accumulator,
so the accumulator factors out of the fold. -/
theorem buildSearchParams_acc (params : List (String × ParamValue))
    (acc : List (String × String)) :
    params.foldl (fun searchParams kv =>
      match kv.2 with
      | .undef => searchParams
      | .pnull => searchParams
      | .arr l =>
        if kv.1 = "_fields" then
          if l.length > 0 then
            searchParams ++ [("_fields", String.intercalate "," (l.map Prim.toStringJS))]
          else searchParams
        else searchParams ++ l.map (fun v => (kv.1, v.toStringJS))
      | .prim p =>
        if kv.1 = "_embed" ∧ p = .pbool true then searchParams ++ [("_embed", "true")]
        else searchParams ++ [(kv.1, p.toStringJS)]) acc
    = acc ++ buildSearchParams params := by
  induction params generalizing acc with
  | nil => simp [buildSearchParams]
  | cons kv rest ih =>
    rw [buildSearchParams, List.foldl_cons, List.foldl_cons, ih, ih]
    rcases kv with ⟨k, v⟩
    cases v with
    | undef => simp
    | pnull => simp
    | arr l =>
      by_cases hf : k = "_fields"
      · by_cases hl : l.length > 0 <;> simp [hf, hl]
      · simp [hf]
    | prim p =>
      by_cases he : k = "_embed" ∧ p = .pbool true
      · simp [he]
      · simp [he]

/-- `buildSearchParams` distributes over concatenation of the parameter
list: output pairs appear in insertion order. -/
theorem buildSearchParams_append (ps qs : List (String × ParamValue)) :
    buildSearchParams (ps ++ qs) = buildSearchParams ps ++ buildSearchParams qs := by
  rw [buildSearchParams, List.foldl_append]
  rw [show (List.foldl _ [] ps) = buildSearchParams ps from rfl]
  exact buildSearchParams_acc qs (buildSearchParams ps)

/-- C9 (amended): `buildSearchParams` emits keys in insertion order
(it distributes over concatenation of the entry list), skips
`undefined` values, serializes a `_fields` list as one comma-joined
value (and nothing for an empty list), serializes `_embed` as the
literal `"true"` when its value is the boolean `true`, but an `_embed`
value of `false` falls through to generic stringification and emits
`_embed=false` (rather than emitting nothing), serializes every other
list-valued parameter as repeated pairs in list order, and emits
nothing for empty lists. -/
theorem buildSearchParams_spec :
    (∀ ps qs : List (String × ParamValue),
      buildSearchParams (ps ++ qs) = buildSearchParams ps ++ buildSearchParams qs)
    ∧ (∀ k, buildSearchParams [(k, ParamValue.undef)] = [])
    ∧ (∀ l, l ≠ [] →
        buildSearchParams [("_fields", ParamValue.arr l)]
          = [("_fields", String.intercalate "," (l.map Prim.toStringJS))])
    ∧ buildSearchParams [("_fields", ParamValue.arr [])] = []
    ∧ buildSearchParams [("_embed", ParamValue.prim (Prim.pbool true))] = [("_embed", "true")]
    ∧ buildSearchParams [("_embed", ParamValue.prim (Prim.pbool false))] = [("_embed", "false")]
    ∧ (∀ (k : String) (l : List Prim), k ≠ "_fields" →
        buildSearchParams [(k, ParamValue.arr l)] = l.map (fun v => (k, v.toStringJS))) := by
  refine ⟨buildSearchParams_append, ?_, ?_, by decide, by decide, by decide, ?_⟩
  · intro k; simp [buildSearchParams]
  · intro l hl
    have hpos : l.length > 0 := List.length_pos.mpr hl
    simp [buildSearchParams, hpos]
  · intro k l hk
    simp [buildSearchParams, hk]

/-- C9, claim as stated is false: an `_embed` entry whose value is the
boolean `false` does not emit nothing; it falls through to the generic
branch and emits the pair `("_embed", "false")`. -/
theorem buildSearchParams_embed_false_cex :
    buildSearchParams [("_embed", ParamValue.prim (Prim.pbool false))] ≠ []
    ∧ buildSearchParams [("_embed", ParamValue.prim (Prim.pbool false))]
        = [("_embed", "false")] := by
  exact ⟨by decide, by decide⟩

/-- Witness for C9: the amended theorem applied to a concrete `_fields`
list and a concrete numeric `categories` list. -/
theorem buildSearchParams_spec_witness :
    buildSearchParams
        [("_fields", ParamValue.arr [Prim.pstr "id", Prim.pstr "title", Prim.pstr "content"])]
      = [("_fields", "id,title,content")]
    ∧ buildSearchParams [("categories", ParamValue.arr [Prim.pnum 1, Prim.pnum 2, Prim.pnum 3])]
      = [("categories", "1"), ("categories", "2"), ("categories", "3")] := by
  have h := buildSearchParams_spec
  exact ⟨(h.2.2.1 [Prim.pstr "id", Prim.pstr "title", Prim.pstr "content"]
      (by decide)).trans (by decide),
    (h.2.2.2.2.2.2 "categories" [Prim.pnum 1, Prim.pnum 2, Prim.pnum 3]
      (by decide)).trans (by decide)⟩

/-! ## Pagination metadata (`extractPaginationInfo` in `http.ts`)

The response is modelled by the values of its two pagination headers:
`none` when the header is absent, `some n` for a header holding the
decimal numeral of `n` (the claims never involve malformed header
text, so `parseInt(headers.get(h) || "0", 10)` becomes `getD 0`).
JavaScript `x || d` on numbers treats `0` as falsy. -/

/-- The pagination-relevant part of an HTTP response: the numeric
values of the `X-WP-Total` and `X-WP-TotalPages` headers, when
present. -/
structure RespHeaders where
  xWPTotal : Option Int := Option.none
  xWPTotalPages : Option Int := Option.none
deriving DecidableEq

/-- The optional `page` / `per_page` entries of a parameter mapping. -/
structure ListParams where
  page : Option Int := Option.none
  per_page : Option Int := Option.none
deriving DecidableEq

/-- JavaScript `v || d` for an optional number `v`: `0` is falsy. -/
def orFalsy (v : Option Int) (d : Int) : Int :=
  match v with
  | Option.none => d
  | some x => if x = 0 then d else x

/-- `WPPaginationInfo` from `types.ts`. -/
structure WPPaginationInfo where
  total : Int
  totalPages : Int
  currentPage : Int
  perPage : Int
  hasMore : Bool
deriving DecidableEq

/-- `WPPaginatedResponse<T>` from `types.ts`. -/
structure WPPaginatedResponse (T : Type) where
  items : List T
  pagination : WPPaginationInfo
deriving DecidableEq

/-- Embedding of `extractPaginationInfo(response, params)` from
`http.ts`: `total` and `totalPages` are the parsed headers (0 when
absent), `currentPage` is `params.page || 1`, `perPage` is
`params.per_page || 10`, and `hasMore` is `currentPage < totalPages`. -/
def extractPaginationInfo (response : RespHeaders) (params : ListParams) :
    WPPaginationInfo :=
  let total := response.xWPTotal.getD 0
  let totalPages := response.xWPTotalPages.getD 0
  let currentPage := orFalsy params.page 1
  let perPage := orFalsy params.per_page 10
  { total := total, totalPages := totalPages, currentPage := currentPage,
    perPage := perPage, hasMore := decide (currentPage < totalPages) }

/-- C1 (amended): when both pagination headers are absent,
`extractPaginationInfo` ignores the item count entirely (the items are
not even an input) and parses the missing headers as `0`: `total = 0`
and `totalPages = 0`, not 1; `hasMore` is `currentPage < 0`, hence
false whenever `currentPage` is nonnegative — in particular false when
the `page` parameter is omitted (current page 1). -/
theorem extractPaginationInfo_absent_headers (response : RespHeaders)
    (params : ListParams)
    (h1 : response.xWPTotal = Option.none)
    (h2 : response.xWPTotalPages = Option.none) :
    (extractPaginationInfo response params).total = 0
    ∧ (extractPaginationInfo response params).totalPages = 0
    ∧ (0 ≤ (extractPaginationInfo response params).currentPage →
        (extractPaginationInfo response params).hasMore = false)
    ∧ (params.page = Option.none →
        (extractPaginationInfo response params).currentPage = 1
        ∧ (extractPaginationInfo response params).hasMore = false) := by
  refine ⟨by simp [extractPaginationInfo, h1], by simp [extractPaginationInfo, h2],
    ?_, ?_⟩
  · intro hcp
    simp only [extractPaginationInfo, h2] at hcp ⊢
    simp only [Option.getD_none, decide_eq_false_iff_not, not_lt]
    exact hcp
  · intro hpage
    constructor
    · simp [extractPaginationInfo, hpage, orFalsy]
    · simp [extractPaginationInfo, h2, hpage, orFalsy]

/-- C1, claim as stated is false: with both headers absent (and no
parameters), `totalPages` is 0, not the claimed default of 1. -/
theorem extractPaginationInfo_absent_headers_cex :
    (extractPaginationInfo {} {}).totalPages ≠ 1 := by decide

/-- Witness for C1: the amended theorem at absent headers and empty
parameters. -/
theorem extractPaginationInfo_absent_headers_witness :
    (extractPaginationInfo {} {}).total = 0
    ∧ (extractPaginationInfo {} {}).totalPages = 0
    ∧ (extractPaginationInfo {} {}).currentPage = 1
    ∧ (extractPaginationInfo {} {}).hasMore = false := by
  have h := extractPaginationInfo_absent_headers {} {} rfl rfl
  exact ⟨h.1, h.2.1, (h.2.2.2 rfl).1, (h.2.2.2 rfl).2⟩

/-- C4 (amended): `hasMore` is true iff `currentPage < totalPages`
(always, by construction); `currentPage` equals the supplied `page`
parameter when that parameter is nonzero, and 1 when the parameter is
omitted — but a supplied `page` of `0` is falsy in JavaScript and is
replaced by 1. -/
theorem extractPaginationInfo_currentPage (response : RespHeaders)
    (params : ListParams) :
    ((extractPaginationInfo response params).hasMore = true
      ↔ (extractPaginationInfo response params).currentPage
          < (extractPaginationInfo response params).totalPages)
    ∧ (params.page = Option.none →
        (extractPaginationInfo response params).currentPage = 1)
    ∧ (∀ p : Int, params.page = some p → p ≠ 0 →
        (extractPaginationInfo response params).currentPage = p) := by
  refine ⟨?_, ?_, ?_⟩
  · simp [extractPaginationInfo]
  · intro hpage; simp [extractPaginationInfo, hpage, orFalsy]
  · intro p hpage hp; simp [extractPaginationInfo, hpage, orFalsy, hp]

/-- C4, claim as stated is false: for response headers total=25,
totalPages=3 and a caller-supplied page parameter of 0, the resulting
`currentPage` is 1, not the supplied 0 (JavaScript `params.page || 1`
treats 0 as falsy). -/
theorem extractPaginationInfo_currentPage_cex :
    (extractPaginationInfo { xWPTotal := some 25, xWPTotalPages := some 3 }
        { page := some 0 }).currentPage ≠ 0 := by decide

/-- Witness for C4: the amended theorem for headers total=25,
totalPages=3 at page 2 (`hasMore` true) and page 3 (`hasMore`
false). -/
theorem extractPaginationInfo_currentPage_witness :
    (extractPaginationInfo { xWPTotal := some 25, xWPTotalPages := some 3 }
        { page := some 2 }).currentPage = 2
    ∧ (extractPaginationInfo { xWPTotal := some 25, xWPTotalPages := some 3 }
        { page := some 2 }).hasMore = true
    ∧ (extractPaginationInfo { xWPTotal := some 25, xWPTotalPages := some 3 }
        { page := some 3 }).hasMore = false := by
  have h2 := extractPaginationInfo_currentPage
    { xWPTotal := some 25, xWPTotalPages := some 3 } { page := some 2 }
  have h3 := extractPaginationInfo_currentPage
    { xWPTotal := some 25, xWPTotalPages := some 3 } { page := some 3 }
  refine ⟨h2.2.2 2 rfl (by decide), ?_, ?_⟩
  · exact h2.1.mpr (by rw [h2.2.2 2 rfl (by decide)]; decide)
  · by_contra hmore
    have := h3.1.mp (by revert hmore; cases hhm :
      (extractPaginationInfo { xWPTotal := some 25, xWPTotalPages := some 3 }
        { page := some 3 }).hasMore <;> simp)
    rw [h3.2.2 3 rfl (by decide)] at this
    revert this; decide

/-! ## Pagination helpers (`createPaginationHelpers` in `utils.ts`)

The caller-supplied list function is a pure function from the effective
parameter record to a paginated response (the helpers only vary the
`page` / `per_page` fields of the spread parameters).  The async
generator `pages` is modelled with explicit fuel; the source loop has
no page cap and can run forever, so the fuel bounds how many
iterations are observed.  `totalPages` is a required field of
`WPPaginationInfo`, so the destructuring default `totalPages = 1` in
the source never fires and is not modelled. -/

/-- One run of the `pages` generator loop body from `utils.ts`,
starting at page counter `page`: fetch
`listFn({...params, page})`, yield the response, and continue with
`page + 1` exactly when `page < response.pagination.totalPages`. -/
def pagesLoop {T : Type} (listFn : ListParams → WPPaginatedResponse T)
    (params : ListParams) : Nat → Nat → List (WPPaginatedResponse T)
  | 0, _ => []
  | fuel + 1, page =>
    let response := listFn { params with page := some (page : Int) }
    response ::
      (if (page : Int) < response.pagination.totalPages then
        pagesLoop listFn params fuel (page + 1)
      else [])

/-- The `pages(params)` generator: the loop starts with `page = 1` and
`hasMore = true`, so the first iteration always runs. -/
def pages {T : Type} (listFn : ListParams → WPPaginatedResponse T)
    (params : ListParams) (fuel : Nat) : List (WPPaginatedResponse T) :=
  pagesLoop listFn params fuel 1

/-- Helper for C5: the generator loop starting at page `p` yields the
responses for pages `p, p+1, ..., k` in order, where `k` is the first
page at which the page counter reaches the fetched response's
`totalPages`. -/
theorem pagesLoop_eq_map {T : Type} (listFn : ListParams → WPPaginatedResponse T)
    (params : ListParams) (fuel : Nat) :
    ∀ p k : Nat, 1 ≤ p → p ≤ k →
      (∀ q : Nat, p ≤ q → q < k →
        (q : Int) < (listFn { params with page := some (q : Int) }).pagination.totalPages) →
      ¬ ((k : Int) < (listFn { params with page := some (k : Int) }).pagination.totalPages) →
      k + 1 - p ≤ fuel →
      pagesLoop listFn params fuel p
        = (List.range (k + 1 - p)).map
            (fun i : Nat => listFn { params with page := some ((p : Int) + (i : Int)) }) := by
  induction fuel with
  | zero => intro p k h1 hpk hcont hstop hfuel; omega
  | succ fuel ih =>
    intro p k h1 hpk hcont hstop hfuel
    by_cases hpk2 : p = k
    · subst hpk2
      have hr : p + 1 - p = 1 := by omega
      have hrange : List.range 1 = [0] := rfl
      simp only [pagesLoop, if_neg hstop, hr, hrange, List.map_cons,
        List.map_nil, Nat.cast_zero, add_zero]
    · have hlt : p < k := lt_of_le_of_ne hpk hpk2
      have hcond := hcont p le_rfl hlt
      have hih := ih (p + 1) k (by omega) (by omega)
        (fun q hq1 hq2 => hcont q (by omega) hq2) hstop (by omega)
      have hr2 : k + 1 - (p + 1) = k - p := by omega
      rw [hr2] at hih
      have hr : k + 1 - p = (k - p) + 1 := by omega
      simp only [pagesLoop, if_pos hcond, hih, hr, List.range_succ_eq_map,
        List.map_cons, List.map_map, Nat.cast_zero, add_zero]
      congr 1
      apply List.map_congr_left
      intro i _
      have harg : ((p + 1 : Nat) : Int) + (i : Int) = (p : Int) + ((i.succ : Nat) : Int) := by
        push_cast; ring
      simp only [Function.comp, harg]

/-- C5 (amended): `pages` fetches pages strictly one at a time starting
at page 1, and stops yielding exactly when its own page counter is no
longer below the most recently fetched response's `totalPages` field —
the response's `hasMore` field is never consulted.  With enough fuel it
yields precisely the responses for pages `1..k`, where `k` is the first
page whose response has `totalPages <= k`. -/
theorem pages_yields {T : Type} (listFn : ListParams → WPPaginatedResponse T)
    (params : ListParams) (k fuel : Nat) (hk : 1 ≤ k)
    (hcont : ∀ p : Nat, 1 ≤ p → p < k →
      (p : Int) < (listFn { params with page := some (p : Int) }).pagination.totalPages)
    (hstop : ¬ ((k : Int) < (listFn { params with page := some (k : Int) }).pagination.totalPages))
    (hfuel : k ≤ fuel) :
    pages listFn params fuel
      = (List.range k).map
          (fun i : Nat => listFn { params with page := some ((i : Int) + 1) }) := by
  have h := pagesLoop_eq_map listFn params fuel 1 k le_rfl hk hcont hstop (by omega)
  have hr : k + 1 - 1 = k := by omega
  rw [pages, h, hr]
  apply List.map_congr_left
  intro i _
  have harg : ((1 : Nat) : Int) + (i : Int) = (i : Int) + 1 := by push_cast; ring
  rw [harg]

/-- A list function all of whose responses carry `totalPages = 2` but
`hasMore = false` (such mismatched metadata is possible because `pages`
accepts an arbitrary underlying list function). -/
def hasMoreFalseFn : ListParams → WPPaginatedResponse Nat := fun _ =>
  ⟨[], { total := 0, totalPages := 2, currentPage := 1, perPage := 10,
         hasMore := false }⟩

/-- C5, claim as stated is false: the generator does not stop when the
most recently fetched page's `hasMore` field is false.  With a list
function whose page-1 response has `hasMore = false` but
`totalPages = 2`, the generator still fetches and yields a second page
(it recomputes its own continuation condition from `totalPages`). -/
theorem pages_hasMore_cex :
    (hasMoreFalseFn { page := some 1 }).pagination.hasMore = false
    ∧ (pages hasMoreFalseFn {} 3).length = 2 := by decide

/-- Witness for C5: the amended theorem applied to `hasMoreFalseFn`
(stopping page k = 2) with fuel 2. -/
theorem pages_yields_witness :
    pages hasMoreFalseFn {} 2
      = (List.range 2).map
          (fun i : Nat => hasMoreFalseFn { page := some ((i : Int) + 1) }) := by
  have h := pages_yields hasMoreFalseFn {} 2 2 (by decide)
    (fun p h1 h2 => by
      have hp : p = 1 := by omega
      subst hp; decide)
    (by decide) (by decide)
  exact h.trans (by decide)

/-- Embedding of `listAll(params)` from `utils.ts`, instrumented with
the ordered list of parameter records passed to the underlying list
function.  Page 1 is fetched with `page: 1, per_page: 100`; if its
`totalPages` is exactly 1 the items are returned at once; otherwise
pages `2..totalPages` are fetched (`Array.from({length: totalPages-1})`
yields the empty array for any length below 1, hence `Int.toNat`) and
the items are concatenated in page order. -/
def listAllRun {T : Type} (listFn : ListParams → WPPaginatedResponse T)
    (params : ListParams) : List T × List ListParams :=
  let firstArgs : ListParams := { params with page := some 1, per_page := some 100 }
  let firstPage := listFn firstArgs
  let totalPages := firstPage.pagination.totalPages
  if totalPages = 1 then (firstPage.items, [firstArgs])
  else
    let restArgs := (List.range (totalPages - 1).toNat).map
      (fun i : Nat => ({ params with page := some ((i : Int) + 2), per_page := some 100 } : ListParams))
    (firstPage.items ++ (restArgs.map (fun a => (listFn a).items)).flatten,
      firstArgs :: restArgs)

/-- C6: when the page-1 fetch (made with `per_page` forced to 100)
reports `totalPages = n` with `n >= 1`, `listAll` returns page 1's
items immediately when `n = 1`, and otherwise the concatenation of the
items of pages `1, 2, ..., n` in ascending page order; the underlying
fetch is invoked exactly `n` times, with the recorded parameter list
`page 1, page 2, ..., page n`, all at `per_page = 100`. -/
theorem listAll_all_pages {T : Type} (listFn : ListParams → WPPaginatedResponse T)
    (params : ListParams) (n : Nat) (hn1 : 1 ≤ n)
    (hn : (listFn { params with page := some 1, per_page := some 100 }).pagination.totalPages = (n : Int)) :
    (listAllRun listFn params).1
      = (listFn { params with page := some 1, per_page := some 100 }).items
        ++ ((List.range (n - 1)).map
            (fun i : Nat => (listFn { params with page := some ((i : Int) + 2), per_page := some 100 }).items)).flatten
    ∧ (listAllRun listFn params).2
      = { params with page := some 1, per_page := some 100 }
        :: (List.range (n - 1)).map
            (fun i : Nat => ({ params with page := some ((i : Int) + 2), per_page := some 100 } : ListParams))
    ∧ (listAllRun listFn params).2.length = n := by
  by_cases h1 : n = 1
  · subst h1
    have hn' : (listFn { params with page := some 1, per_page := some 100 }).pagination.totalPages = 1 := by exact_mod_cast hn
    refine ⟨?_, ?_, ?_⟩ <;> simp [listAllRun, hn']
  · have hne : ¬ ((n : Int) = 1) := by
      intro h; exact h1 (by exact_mod_cast h)
    have htoNat : ((n : Int) - 1).toNat = n - 1 := by omega
    refine ⟨?_, ?_, ?_⟩
    · simp only [listAllRun, hn, if_neg hne, htoNat, List.map_map]
      rfl
    · simp only [listAllRun, hn, if_neg hne, htoNat]
    · simp only [listAllRun, hn, if_neg hne, htoNat, List.length_cons,
        List.length_map, List.length_range]
      omega

/-- The three-page mock source of the claim: pages 1, 2, 3 hold the
items `0..99`, `100..199`, `200..206` respectively, and every response
reports 207 total items in 3 pages. -/
def mock3Pages : ListParams → WPPaginatedResponse Nat := fun a =>
  if a.page = some 1 then
    ⟨List.range 100,
      { total := 207, totalPages := 3, currentPage := 1, perPage := 100, hasMore := true }⟩
  else if a.page = some 2 then
    ⟨(List.range 100).map (fun x => x + 100),
      { total := 207, totalPages := 3, currentPage := 2, perPage := 100, hasMore := true }⟩
  else
    ⟨(List.range 7).map (fun x => x + 200),
      { total := 207, totalPages := 3, currentPage := 3, perPage := 100, hasMore := false }⟩

set_option maxRecDepth 8000 in
/-- Witness for C6: on the three-page 100/100/7 mock, `listAll` returns
the 207 items `0..206` in cross-page order and invokes the underlying
fetch exactly 3 times. -/
theorem listAll_all_pages_witness :
    (listAllRun mock3Pages {}).1 = List.range 207
    ∧ (listAllRun mock3Pages {}).2.length = 3 := by
  have h := listAll_all_pages mock3Pages {} 3 (by decide) (by decide)
  exact ⟨h.1.trans (by decide), h.2.2⟩

/-- C10: when the page-1 fetch reports `totalPages <= 1` (including the
`totalPages = 0` that `extractPaginationInfo` produces when the
pagination headers are absent), `listAll` returns exactly page 1's
items and invokes the underlying fetch exactly once, with
`page 1, per_page 100` (for `totalPages = 1` by the early return, and
for `totalPages <= 0` because `Array.from({length: totalPages - 1})` is
empty). -/
theorem listAll_single_page {T : Type} (listFn : ListParams → WPPaginatedResponse T)
    (params : ListParams)
    (htp : (listFn { params with page := some 1, per_page := some 100 }).pagination.totalPages ≤ 1) :
    (listAllRun listFn params).1
      = (listFn { params with page := some 1, per_page := some 100 }).items
    ∧ (listAllRun listFn params).2
      = [{ params with page := some 1, per_page := some 100 }] := by
  by_cases h1 : (listFn { params with page := some 1, per_page := some 100 }).pagination.totalPages = 1
  · constructor <;> simp [listAllRun, h1]
  · have hz : ((listFn { params with page := some 1, per_page := some 100 }).pagination.totalPages - 1).toNat = 0 := by
      omega
    constructor <;> simp [listAllRun, h1, hz]

/-- Witness for C10: a source whose pagination metadata is what
`extractPaginationInfo` yields with both headers absent
(`totalPages = 0`): `listAll` returns its two items and performs a
single fetch. -/
theorem listAll_single_page_witness :
    (listAllRun (fun _ => (⟨[5, 6], extractPaginationInfo {} {}⟩
        : WPPaginatedResponse Nat)) {}).1 = [5, 6]
    ∧ (listAllRun (fun _ => (⟨[5, 6], extractPaginationInfo {} {}⟩
        : WPPaginatedResponse Nat)) {}).2
      = [{ page := some 1, per_page := some 100 }] := by
  have h := listAll_single_page
    (fun _ => (⟨[5, 6], extractPaginationInfo {} {}⟩ : WPPaginatedResponse Nat))
    {} (by decide)
  exact ⟨h.1.trans (by decide), h.2.trans (by decide)⟩

/-! ## Request executor (`makeApiRequest` in `http.ts`)

The HTTP transport (`fetch`) is modelled as a pure function from the
call index to the response returned by that call; the executor is
modelled with explicit fuel because the source's retry recursion is
unbounded.  The mock auth strategy carries the `shouldRefresh`
predicate (absent or present) and whether a `refresh` hook is present
(the hook itself is a no-op in the claims considered; the executor
invokes it, when present, before retrying).  `beforeRequest` /
`afterRequest` hooks are identity here because no claim involves
them. -/

/-- The part of a fetch `Response` the executor inspects. -/
structure HttpResponse where
  status : Int
  body : String
deriving DecidableEq

/-- `Response.ok` of the Fetch API: status in the range [200, 300). -/
def HttpResponse.ok (r : HttpResponse) : Bool :=
  decide (200 ≤ r.status ∧ r.status < 300)

/-- The auth hooks consulted by `makeApiRequest` on a non-OK response. -/
structure MockAuth where
  shouldRefresh : Option (HttpResponse → Bool) := Option.none
  hasRefreshHook : Bool := false

/-- Outcome of one `makeApiRequest` call: the returned response, or the
`WPApiError` raised by `handleApiError` for that response. -/
inductive ReqOutcome
  | success (response : HttpResponse)
  | apiError (response : HttpResponse)
deriving DecidableEq

/-- Embedding of `makeApiRequest(config)` from `http.ts`: send the
request (the `calls` index counts transport invocations so far); if the
response is not OK and `auth.shouldRefresh(response)` is true, call
`auth.refresh?.()` and re-enter the whole function with the same
configuration; if not OK otherwise, raise the API error; if OK, return
the response.  Returns the outcome together with the total number of
transport calls and of refresh invocations, or `none` when the fuel is
exhausted (the source recursion is unbounded). -/
def makeApiRequestFuel (transport : Nat → HttpResponse) (auth : MockAuth) :
    Nat → Nat → Nat → Option (ReqOutcome × Nat × Nat)
  | 0, _, _ => Option.none
  | fuel + 1, calls, refreshes =>
    let response := transport calls
    if response.ok = false then
      match auth.shouldRefresh with
      | some f =>
        if f response then
          makeApiRequestFuel transport auth fuel (calls + 1)
            (refreshes + (if auth.hasRefreshHook then 1 else 0))
        else some (ReqOutcome.apiError response, calls + 1, refreshes)
      | Option.none => some (ReqOutcome.apiError response, calls + 1, refreshes)
    else some (ReqOutcome.success response, calls + 1, refreshes)

/-- C2: for any transport whose first response is not OK, an auth
strategy whose `shouldRefresh` accepts that response and which carries
a (no-op) `refresh` hook, and a second response that is OK, the
executor calls `refresh` once and retries the entire request once with
the same configuration: it returns the second (OK) response, the
transport is called exactly twice, and `refresh` runs exactly once. -/
theorem makeApiRequest_retry_once (transport : Nat → HttpResponse)
    (f : HttpResponse → Bool)
    (h0 : (transport 0).ok = false) (hf : f (transport 0) = true)
    (h1 : (transport 1).ok = true) :
    makeApiRequestFuel transport
        { shouldRefresh := some f, hasRefreshHook := true } 2 0 0
      = some (ReqOutcome.success (transport 1), 2, 1) := by
  simp [makeApiRequestFuel, h0, hf, h1]

/-- A transport returning 401 once, then 200. -/
def transport401then200 : Nat → HttpResponse := fun n =>
  if n = 0 then ⟨401, "unauthorized"⟩ else ⟨200, "body"⟩

/-- Witness for C2: with the 401-then-200 transport, an
always-refreshing `shouldRefresh` and a no-op refresh hook, `execute`
returns the 200 body after exactly two transport calls and one
refresh. -/
theorem makeApiRequest_retry_once_witness :
    makeApiRequestFuel transport401then200
        { shouldRefresh := some (fun _ => true), hasRefreshHook := true } 2 0 0
      = some (ReqOutcome.success ⟨200, "body"⟩, 2, 1) := by
  have h := makeApiRequest_retry_once transport401then200 (fun _ => true)
    (by decide) rfl (by decide)
  exact h.trans (by decide)

/-! ## Authentication strategies (`createAuth` and `AuthProviders`)

JavaScript `"field" in credentials` (key presence) is modelled as the
corresponding `Option` field being `some`; template interpolation of an
absent value produces the string `"undefined"`.  Base64 is abstracted
as an injective tag (no claim depends on the encoding, only on whether
construction succeeds and which header keys appear). -/

/-- A credentials record; a key absent from the JavaScript object is an
`Option.none` field. -/
structure Credentials where
  username : Option String := Option.none
  password : Option String := Option.none
  token : Option String := Option.none
  refreshToken : Option String := Option.none
  apiKey : Option String := Option.none
  secret : Option String := Option.none
  nonce : Option String := Option.none
  clientId : Option String := Option.none
  clientSecret : Option String := Option.none
  accessToken : Option String := Option.none
deriving DecidableEq

/-- `btoa`, abstracted as an injective tagging (claims never inspect
the encoded bytes). -/
def btoa (s : String) : String := "base64:" ++ s

/-- JavaScript template interpolation of a possibly-undefined value. -/
def jsInterp (v : Option String) : String := v.getD "undefined"

/-- The `AuthResponse` shape from `src/auth/types.ts`: the header set
plus which lifecycle hooks are present. -/
structure AuthResponse where
  headers : List (String × String)
  hasBeforeRequest : Bool := false
  hasRefresh : Bool := false
deriving DecidableEq

/-- `AuthProviders.none()`: empty headers. -/
def AuthProviders.none : AuthResponse := { headers := [] }

/-- `AuthProviders.basic(credentials)`: one Basic Authorization header
built from the interpolated username and password. -/
def AuthProviders.basic (credentials : Credentials) : AuthResponse :=
  { headers := [("Authorization",
      "Basic " ++ btoa (jsInterp credentials.username ++ ":"
        ++ jsInterp credentials.password))] }

/-- `AuthProviders.bearer(credentials, onRefresh)`: Bearer header and a
refresh hook. -/
def AuthProviders.bearer (credentials : Credentials) : AuthResponse :=
  { headers := [("Authorization", "Bearer " ++ jsInterp credentials.token)],
    hasRefresh := true }

/-- `AuthProviders.apiKey(credentials)`. -/
def AuthProviders.apiKey (credentials : Credentials) : AuthResponse :=
  { headers := [("X-API-Key", jsInterp credentials.apiKey)] }

/-- `AuthProviders.hmac(credentials)`: empty headers plus a
`beforeRequest` extension point. -/
def AuthProviders.hmac (_credentials : Credentials) : AuthResponse :=
  { headers := [], hasBeforeRequest := true }

/-- `AuthProviders.nonce(credentials)`. -/
def AuthProviders.nonce (credentials : Credentials) : AuthResponse :=
  { headers := [("X-WP-Nonce", jsInterp credentials.nonce)] }

/-- `AuthProviders.oauth2(credentials, onRefresh)`: Bearer header only
when a (truthy, i.e. non-empty) access token is present, plus a refresh
hook. -/
def AuthProviders.oauth2 (credentials : Credentials) : AuthResponse :=
  { headers :=
      match credentials.accessToken with
      | some accessToken =>
        if accessToken = "" then [] else [("Authorization", "Bearer " ++ accessToken)]
      | Option.none => [],
    hasRefresh := true }

/-- The authentication method tag of `AuthConfig`. -/
inductive AuthMethod
  | none
  | basic
  | bearer
  | apiKey
  | hmac
  | nonce
  | oauth2
deriving DecidableEq

/-- Embedding of `createAuth(config)` from `src/auth/index.ts`: the
validation checks are exactly the source's `!credentials ||
"field" in credentials === false` tests; a failed check throws the
corresponding `Error` message. -/
def createAuth (method : AuthMethod) (credentials : Option Credentials) :
    Except String AuthResponse :=
  match method with
  | AuthMethod.none => Except.ok AuthProviders.none
  | AuthMethod.basic =>
    match credentials with
    | Option.none => Except.error "Basic auth requires username and password"
    | some c =>
      if c.username.isSome = false then
        Except.error "Basic auth requires username and password"
      else Except.ok (AuthProviders.basic c)
  | AuthMethod.bearer =>
    match credentials with
    | Option.none => Except.error "Bearer auth requires a token"
    | some c =>
      if c.token.isSome = false then Except.error "Bearer auth requires a token"
      else Except.ok (AuthProviders.bearer c)
  | AuthMethod.apiKey =>
    match credentials with
    | Option.none => Except.error "API Key auth requires an apiKey"
    | some c =>
      if c.apiKey.isSome = false then Except.error "API Key auth requires an apiKey"
      else Except.ok (AuthProviders.apiKey c)
  | AuthMethod.hmac =>
    match credentials with
    | Option.none => Except.error "HMAC auth requires an apiKey and secret"
    | some c =>
      if c.apiKey.isSome = false || c.secret.isSome = false then
        Except.error "HMAC auth requires an apiKey and secret"
      else Except.ok (AuthProviders.hmac c)
  | AuthMethod.nonce =>
    match credentials with
    | Option.none => Except.error "Nonce auth requires a nonce"
    | some c =>
      if c.nonce.isSome = false then Except.error "Nonce auth requires a nonce"
      else Except.ok (AuthProviders.nonce c)
  | AuthMethod.oauth2 =>
    match credentials with
    | Option.none => Except.error "OAuth2 requires clientId and clientSecret"
    | some c =>
      if c.clientId.isSome = false || c.clientSecret.isSome = false then
        Except.error "OAuth2 requires clientId and clientSecret"
      else Except.ok (AuthProviders.oauth2 c)

/-- C3: the code contradicts the claim (and its own error message) for
basic authentication.  `createAuth` with method `basic` and credentials
containing a username but no password does not throw: it returns a
strategy whose Authorization header interpolates the missing password
as the string `"undefined"`.  (Every other method's required fields are
checked as claimed.) -/
theorem createAuth_basic_missing_password :
    createAuth AuthMethod.basic (some { username := some "admin" })
      = Except.ok (AuthProviders.basic { username := some "admin" })
    ∧ (AuthProviders.basic { username := some "admin" }).headers
      = [("Authorization", "Basic " ++ btoa "admin:undefined")] := by
  exact ⟨rfl, by decide⟩

/-- Supporting evidence for C3: the other methods' missing-field checks
do fail at construction with the messages naming the required
fields. -/
theorem createAuth_missing_field_errors :
    createAuth AuthMethod.basic Option.none
      = Except.error "Basic auth requires username and password"
    ∧ createAuth AuthMethod.basic (some {})
      = Except.error "Basic auth requires username and password"
    ∧ createAuth AuthMethod.bearer (some {})
      = Except.error "Bearer auth requires a token"
    ∧ createAuth AuthMethod.apiKey (some {})
      = Except.error "API Key auth requires an apiKey"
    ∧ createAuth AuthMethod.hmac (some { apiKey := some "k" })
      = Except.error "HMAC auth requires an apiKey and secret"
    ∧ createAuth AuthMethod.nonce (some {})
      = Except.error "Nonce auth requires a nonce"
    ∧ createAuth AuthMethod.oauth2 (some { clientId := some "c" })
      = Except.error "OAuth2 requires clientId and clientSecret" := by
  refine ⟨rfl, rfl, rfl, rfl, rfl, rfl, rfl⟩

end Wpjsapi
